import Mathlib

/-!
Shallow embedding of the QSL card generator server (src/server.js, the
authenticated variant) covering the session, authorization, audit and
callsign-configuration logic, together with theorems about the frozen
claims over that embedding.

Conventions of the embedding:
* SQLite rows become Lean structures; the database becomes lists of rows
  inside an explicit ServerState that handlers thread through.
* Time is a Nat (milliseconds); the SQL comparison expires_at > now is
  the Nat comparison now < expiresAt.
* JavaScript truthiness on request-body strings is modelled on
  Option String: absent = none, present-but-empty = some "", and a field
  is truthy when it is some s with s nonempty.
* bcrypt is abstracted by explicit function parameters bc (compare) and
  hashFn (hash); the handlers only ever call them, as the source only
  ever calls the bcrypt primitives.
* A thrown exception inside a handler is modelled as the Express default
  500 response; for the audit insert, whose possible failure claim C3 is
  about, the handlers take a Bool parameter auditOk telling whether the
  insert succeeds or throws.
-/

/-- HTTP response as the caller observes it: status code and the error
message or a marker for the success payload. -/
structure Response where
  status : Nat
  body : String
deriving DecidableEq, Repr

/-- Row of the users table. -/
structure User where
  id : Nat
  username : String
  passwordHash : String
  callsign : Option String
  isAdmin : Bool
  lastLogin : Option Nat
deriving DecidableEq, Repr

/-- Row of the sessions table. -/
structure Session where
  token : String
  userId : Nat
  expiresAt : Nat
deriving DecidableEq, Repr

/-- Row of the audit_log table. -/
structure AuditEntry where
  timestamp : Nat
  userId : Option Nat
  username : Option String
  callsign : Option String
  action : String
  details : Option String
  ipAddress : String
deriving DecidableEq, Repr

/-- One entry of callsigns.json. textPositions is kept as an opaque
serialized payload: the handlers only copy it around. -/
structure CallsignConfig where
  id : String
  name : String
  qrzLink : String
  textPositions : String
  createdAt : String
  updatedAt : Option String
deriving DecidableEq, Repr

/-- The whole persistent state the handlers touch. -/
structure ServerState where
  users : List User
  sessions : List Session
  auditLog : List AuditEntry
  callsigns : List CallsignConfig
deriving DecidableEq, Repr

/-- JavaScript toLowerCase, written over the character list so that it
reduces inside the kernel (String.map does not). -/
def jsLower (s : String) : String := ⟨s.data.map Char.toLower⟩

/-- JavaScript toUpperCase, same style as jsLower. -/
def jsUpper (s : String) : String := ⟨s.data.map Char.toUpper⟩

/-- JavaScript truthiness of an optional request-body string:
undefined and the empty string are falsy. -/
def jsTruthy : Option String → Bool
  | none => false
  | some s => s ≠ ""

/-- SELECT from sessions WHERE token = ?. -/
def findSession (ss : List Session) (tok : String) : Option Session :=
  ss.find? (fun s => s.token = tok)

/-- SELECT from users WHERE id = ?. -/
def findUserById (us : List User) (uid : Nat) : Option User :=
  us.find? (fun u => u.id = uid)

/-- SELECT from users WHERE username = ?. -/
def findUserByUsername (us : List User) (uname : String) : Option User :=
  us.find? (fun u => u.username = uname)

/-- SELECT id from users WHERE callsign = ?. -/
def findUserByCallsign (us : List User) (cs : String) : Option User :=
  us.find? (fun u => u.callsign = some cs)

/-- getCallsignConfig: find in callsigns.json by case-insensitive id. -/
def getCallsignConfig (cs : List CallsignConfig) (callsign : String) : Option CallsignConfig :=
  cs.find? (fun c => jsLower c.id = jsLower callsign)

/-- The joined row validateSession returns: session columns plus the
joined user columns username, callsign, is_admin. -/
structure SessionContext where
  token : String
  userId : Nat
  expiresAt : Nat
  username : String
  callsign : Option String
  isAdmin : Bool
deriving DecidableEq, Repr

/-- validateSession(token): null for a falsy token, otherwise the row of
the join of sessions and users on user_id filtered by token equality and
expires_at > now; null when no such row exists. -/
def validateSession (st : ServerState) (now : Nat) (token : Option String) :
    Option SessionContext :=
  match token with
  | none => none
  | some tok =>
    if tok = "" then none
    else
      match findSession st.sessions tok with
      | none => none
      | some s =>
        if now < s.expiresAt then
          match findUserById st.users s.userId with
          | none => none
          | some u => some ⟨tok, s.userId, s.expiresAt, u.username, u.callsign, u.isAdmin⟩
        else none

/-- requireCallsignAccess middleware: none means next() (access granted),
some r means the request is short-circuited with response r. -/
def requireCallsignAccess (ctx : SessionContext) (requested : String) : Option Response :=
  if ctx.isAdmin then none
  else
    match ctx.callsign with
    | some cs => if jsLower cs = jsLower requested then none else some ⟨404, "Not found"⟩
    | none => some ⟨404, "Not found"⟩

/-- logAudit: the row the INSERT INTO audit_log appends, for a request
whose req.user is ctx and whose req.params.callsign is paramCs. -/
def logAudit (ctx : SessionContext) (paramCs : Option String) (now : Nat)
    (action : String) (details : Option String) (ip : String) : AuditEntry :=
  let cs : Option String :=
    match ctx.callsign with
    | some c =>
      if c ≠ "" then some c
      else match paramCs with
           | some p => if p ≠ "" then some p else none
           | none => none
    | none =>
      match paramCs with
      | some p => if p ≠ "" then some p else none
      | none => none
  ⟨now, some ctx.userId, some ctx.username, cs, action, details, ip⟩

/-- Append an audit row to the state. -/
def appendAudit (st : ServerState) (e : AuditEntry) : ServerState :=
  { st with auditLog := st.auditLog ++ [e] }

/-- UPDATE users SET ... WHERE id = uid, with f giving the new row. -/
def updateUserRow (us : List User) (uid : Nat) (f : User → User) : List User :=
  us.map (fun u => if u.id = uid then f u else u)

/-- Express default error response when a handler throws synchronously. -/
def expressError : Response := ⟨500, "Internal Server Error"⟩

/-- Session TTL: 7 days in milliseconds, as in createSession. -/
def sessionTTL : Nat := 7 * 24 * 60 * 60 * 1000

/-- POST /api/auth/login. newToken stands for the fresh
crypto.randomBytes token, bc for bcrypt.compare. Returns the response
and the state after the handler. -/
def loginHandler (st : ServerState) (bc : String → String → Bool)
    (newToken : String) (now : Nat)
    (username password : Option String) : Response × ServerState :=
  if ¬(jsTruthy username ∧ jsTruthy password) then
    (⟨400, "Username and password required"⟩, st)
  else
    let uname := jsLower (username.getD "")
    match findUserByUsername st.users uname with
    | none => (⟨401, "Invalid credentials"⟩, st)
    | some user =>
      if bc (password.getD "") user.passwordHash then
        let users1 := updateUserRow st.users user.id (fun u => { u with lastLogin := some now })
        let sess : Session := ⟨newToken, user.id, now + sessionTTL⟩
        (⟨200, "token"⟩, { st with users := users1, sessions := st.sessions ++ [sess] })
      else (⟨401, "Invalid credentials"⟩, st)

/-- POST /api/auth/logout (after requireAuth). -/
def logoutHandler (st : ServerState) (now : Nat) (token : Option String) :
    Response × ServerState :=
  match validateSession st now token with
  | none => (⟨401, "Unauthorized"⟩, st)
  | some _ =>
    let tok := token.getD ""
    (⟨200, "success"⟩, { st with sessions := st.sessions.filter (fun s => s.token ≠ tok) })

/-- POST /api/auth/change-password. The current token authenticates via
requireAuth; on success the password hash is replaced and every other
session of the user is deleted (WHERE user_id = ? AND token != ?). -/
def changePasswordHandler (st : ServerState) (now : Nat)
    (bc : String → String → Bool) (hashFn : String → String)
    (token : Option String)
    (currentPassword newPassword : Option String) : Response × ServerState :=
  match validateSession st now token with
  | none => (⟨401, "Unauthorized"⟩, st)
  | some ctx =>
    if ¬(jsTruthy currentPassword ∧ jsTruthy newPassword) then
      (⟨400, "Current and new password required"⟩, st)
    else if (newPassword.getD "").length < 8 then
      (⟨400, "Password must be at least 8 characters"⟩, st)
    else
      match findUserById st.users ctx.userId with
      | none => (expressError, st)
      | some user =>
        if bc (currentPassword.getD "") user.passwordHash then
          let users1 := updateUserRow st.users user.id
            (fun u => { u with passwordHash := hashFn (newPassword.getD "") })
          let sessions1 := st.sessions.filter
            (fun s => ¬(s.userId = user.id ∧ s.token ≠ ctx.token))
          (⟨200, "success"⟩, { st with users := users1, sessions := sessions1 })
        else (⟨401, "Current password is incorrect"⟩, st)

/-- POST /api/admin/users, body of the handler after requireAuth and
requireAdmin have passed. newId stands for the AUTOINCREMENT id. -/
def createUserHandler (st : ServerState) (hashFn : String → String) (newId : Nat)
    (username password callsign : Option String) (isAdmin : Bool) :
    Response × ServerState :=
  if ¬(jsTruthy username ∧ jsTruthy password) then
    (⟨400, "Username and password required"⟩, st)
  else if (password.getD "").length < 8 then
    (⟨400, "Password must be at least 8 characters"⟩, st)
  else
    let uname := jsLower (username.getD "")
    match findUserByUsername st.users uname with
    | some _ => (⟨409, "Username already exists"⟩, st)
    | none =>
      if jsTruthy callsign then
        match getCallsignConfig st.callsigns (callsign.getD "") with
        | none => (⟨400, "Callsign does not exist. Create it first."⟩, st)
        | some _ =>
          match findUserByCallsign st.users (jsLower (callsign.getD "")) with
          | some _ => (⟨409, "Callsign already assigned to another user"⟩, st)
          | none =>
            let newUser : User :=
              ⟨newId, uname, hashFn (password.getD ""), some (jsLower (callsign.getD "")),
               isAdmin, none⟩
            (⟨201, "created"⟩, { st with users := st.users ++ [newUser] })
      else
        let newUser : User :=
          ⟨newId, uname, hashFn (password.getD ""), none, isAdmin, none⟩
        (⟨201, "created"⟩, { st with users := st.users ++ [newUser] })

/-- Final step of PUT /api/admin/users/:id: the optional is_admin
write, then the 200 response. -/
def putUserApplyAdmin (st2 : ServerState) (userId : Nat) (isAdminField : Option Bool) :
    Response × ServerState :=
  match isAdminField with
  | some b =>
    (⟨200, "updated"⟩,
     { st2 with users := updateUserRow st2.users userId (fun u => { u with isAdmin := b }) })
  | none => (⟨200, "updated"⟩, st2)

/-- Callsign step of PUT /api/admin/users/:id: when the body field is
present, a truthy value is conflict-checked against the other users and
then written lowercased, a falsy one clears the column. -/
def putUserCallsignPhase (st1 : ServerState) (userId : Nat)
    (callsignField : Option (Option String)) (isAdminField : Option Bool) :
    Response × ServerState :=
  match callsignField with
  | none => putUserApplyAdmin st1 userId isAdminField
  | some csOpt =>
    let csTruthy := jsTruthy csOpt
    if csTruthy ∧
        (st1.users.any (fun u => u.callsign = some (jsLower (csOpt.getD "")) ∧ u.id ≠ userId)) then
      (⟨409, "Callsign already assigned to another user"⟩, st1)
    else
      let newCs : Option String :=
        if csTruthy then some (jsLower (csOpt.getD "")) else none
      putUserApplyAdmin
        { st1 with users :=
            updateUserRow st1.users userId (fun u => { u with callsign := newCs }) }
        userId isAdminField

/-- PUT /api/admin/users/:id, body of the handler after requireAuth and
requireAdmin. callsignField distinguishes an absent body field (none)
from a present one (some v, where v itself is the possibly-null value):
the source tests callsign !== undefined and then truthiness. Note the
source updates the password before running the callsign-conflict check. -/
def putUserHandler (st : ServerState) (hashFn : String → String) (userId : Nat)
    (password : Option String) (callsignField : Option (Option String))
    (isAdminField : Option Bool) : Response × ServerState :=
  match findUserById st.users userId with
  | none => (⟨404, "User not found"⟩, st)
  | some _ =>
    if jsTruthy password ∧ (password.getD "").length < 8 then
      (⟨400, "Password must be at least 8 characters"⟩, st)
    else
      let st1 :=
        if jsTruthy password then
          { st with users :=
              updateUserRow st.users userId (fun u => { u with passwordHash := hashFn (password.getD "") }) }
        else st
      putUserCallsignPhase st1 userId callsignField isAdminField

/-- DELETE /api/admin/users/:id, body of the handler after requireAuth
and requireAdmin; actingUserId is req.user.user_id. -/
def deleteUserHandler (st : ServerState) (actingUserId targetId : Nat) :
    Response × ServerState :=
  if targetId = actingUserId then
    (⟨400, "Cannot delete your own account"⟩, st)
  else if st.users.any (fun u => u.id = targetId) then
    (⟨200, "success"⟩,
     { st with users := st.users.filter (fun u => u.id ≠ targetId),
               sessions := st.sessions.filter (fun s => s.userId ≠ targetId) })
  else (⟨404, "User not found"⟩, st)

/-- GET /api/generator/:callsign/access. auditOk tells whether the
audit INSERT succeeds; when it throws, Express answers with its default
500 error and the row is not stored. -/
def generatorAccessHandler (st : ServerState) (now : Nat) (token : Option String)
    (callsignParam : String) (auditOk : Bool) (ip : String) : Response × ServerState :=
  match validateSession st now token with
  | none => (⟨401, "Unauthorized"⟩, st)
  | some ctx =>
    let cs := jsLower callsignParam
    let owns := ctx.isAdmin || (match ctx.callsign with
                                | some c => jsLower c == cs
                                | none => false)
    if !owns then
      if auditOk then
        (⟨404, "Not found"⟩,
         appendAudit st (logAudit ctx (some callsignParam) now "generator_access_denied"
           (some ("Attempted access to " ++ cs)) ip))
      else (expressError, st)
    else
      match getCallsignConfig st.callsigns cs with
      | none => (⟨404, "Callsign not found"⟩, st)
      | some _ =>
        if auditOk then
          (⟨200, "config"⟩,
           appendAudit st (logAudit ctx (some callsignParam) now "generator_access"
             (some ("Accessed generator for " ++ cs)) ip))
        else (expressError, st)

/-- POST /api/generator/:callsign/download. -/
def downloadHandler (st : ServerState) (now : Nat) (token : Option String)
    (callsignParam : String) (targetCallsign : Option String)
    (auditOk : Bool) (ip : String) : Response × ServerState :=
  match validateSession st now token with
  | none => (⟨401, "Unauthorized"⟩, st)
  | some ctx =>
    let cs := jsLower callsignParam
    let owns := ctx.isAdmin || (match ctx.callsign with
                                | some c => jsLower c == cs
                                | none => false)
    if !owns then (⟨404, "Not found"⟩, st)
    else
      if auditOk then
        (⟨200, "success"⟩,
         appendAudit st (logAudit ctx (some callsignParam) now "card_generated"
           (some ("Generated card for " ++
             (if jsTruthy targetCallsign then targetCallsign.getD "" else "unknown"))) ip))
      else (expressError, st)

/-- GET /api/cards/:callsign/card.png. cardFileExists stands for the
fs.existsSync check on the per-callsign template path. -/
def cardPngRoute (st : ServerState) (now : Nat) (token : Option String)
    (callsignParam : String) (cardFileExists : Bool) : Response :=
  match validateSession st now token with
  | none => ⟨401, "Unauthorized"⟩
  | some ctx =>
    let cs := jsLower callsignParam
    let owns := ctx.isAdmin || (match ctx.callsign with
                                | some c => jsLower c == cs
                                | none => false)
    if !owns then ⟨404, "Not found"⟩
    else if cardFileExists then ⟨200, "card.png"⟩
    else ⟨404, "Card template not found"⟩

/-- Overwrite the updatable fields of one callsigns.json entry the way
both PUT handlers do: a truthy body field replaces the stored value, a
falsy one is kept; updatedAt is always set; id and createdAt are not
touched by the handler. -/
def updateConfigFields (c : CallsignConfig) (nowStr : String)
    (name qrzLink textPositions : Option String) : CallsignConfig :=
  { c with
    name := if jsTruthy name then name.getD "" else c.name,
    qrzLink := if jsTruthy qrzLink then qrzLink.getD "" else c.qrzLink,
    textPositions := if jsTruthy textPositions then textPositions.getD "" else c.textPositions,
    updatedAt := some nowStr }

/-- The findIndex-then-mutate core shared by PUT /api/manage/callsign and
PUT /api/admin/callsigns/:callsign: update the first entry whose id
matches target case-insensitively; none when findIndex returns -1. -/
def updateCallsignList (cs : List CallsignConfig) (target : String) (nowStr : String)
    (name qrzLink textPositions : Option String) : Option (List CallsignConfig) :=
  match cs with
  | [] => none
  | c :: rest =>
    if jsLower c.id = jsLower target then
      some (updateConfigFields c nowStr name qrzLink textPositions :: rest)
    else
      match updateCallsignList rest target nowStr name qrzLink textPositions with
      | none => none
      | some rest1 => some (c :: rest1)

/-- PUT /api/manage/callsign (after requireAuth): self-scoped config
update; 403 without an assigned callsign. -/
def updateOwnCallsignHandler (st : ServerState) (now : Nat) (token : Option String)
    (nowStr : String) (name qrzLink textPositions : Option String) :
    Response × ServerState :=
  match validateSession st now token with
  | none => (⟨401, "Unauthorized"⟩, st)
  | some ctx =>
    if ¬jsTruthy ctx.callsign then
      (⟨403, "No callsign assigned to your account"⟩, st)
    else
      match updateCallsignList st.callsigns (jsLower (ctx.callsign.getD "")) nowStr
              name qrzLink textPositions with
      | none => (⟨404, "Callsign not found"⟩, st)
      | some cs1 => (⟨200, "config"⟩, { st with callsigns := cs1 })

/-- PUT /api/admin/callsigns/:callsign, body of the handler after
requireAuth and requireAdmin. -/
def updateCallsignHandler (st : ServerState) (callsignParam : String)
    (nowStr : String) (name qrzLink textPositions : Option String) :
    Response × ServerState :=
  match updateCallsignList st.callsigns (jsLower callsignParam) nowStr
          name qrzLink textPositions with
  | none => (⟨404, "Callsign not found"⟩, st)
  | some cs1 => (⟨200, "config"⟩, { st with callsigns := cs1 })

/-- The default text-overlay positions POST /api/admin/callsigns uses
when the body omits textPositions, kept as the serialized payload. -/
def defaultPositions : String :=
  "callsign:3368,2026;utcDateTime:2623,2499;frequency:3398,2499;mode:3906,2499;rst:4353,2499;additional:2027,2760"

/-- POST /api/admin/callsigns, body of the handler after requireAuth and
requireAdmin. -/
def createCallsignHandler (st : ServerState) (nowStr : String)
    (idField name qrzLink textPositions : Option String) : Response × ServerState :=
  if ¬(jsTruthy idField ∧ jsTruthy name) then
    (⟨400, "id and name are required"⟩, st)
  else
    let callsignId := jsLower (idField.getD "")
    if st.callsigns.any (fun c => jsLower c.id = callsignId) then
      (⟨409, "Callsign already exists"⟩, st)
    else
      let newConfig : CallsignConfig :=
        { id := callsignId,
          name := name.getD "",
          qrzLink := if jsTruthy qrzLink then qrzLink.getD ""
                     else "https://www.qrz.com/db/" ++ jsUpper (idField.getD ""),
          textPositions := if jsTruthy textPositions then textPositions.getD ""
                           else defaultPositions,
          createdAt := nowStr,
          updatedAt := none }
      (⟨201, "created"⟩, { st with callsigns := st.callsigns ++ [newConfig] })

/-- DELETE /api/admin/callsigns/:callsign, body of the handler after
requireAuth and requireAdmin: splice out the first matching entry. -/
def deleteCallsignList (cs : List CallsignConfig) (target : String) :
    Option (List CallsignConfig) :=
  match cs with
  | [] => none
  | c :: rest =>
    if jsLower c.id = jsLower target then some rest
    else
      match deleteCallsignList rest target with
      | none => none
      | some rest1 => some (c :: rest1)

/-- DELETE /api/admin/callsigns/:callsign route body. -/
def deleteCallsignHandler (st : ServerState) (callsignParam : String) :
    Response × ServerState :=
  match deleteCallsignList st.callsigns (jsLower callsignParam) with
  | none => (⟨404, "Callsign not found"⟩, st)
  | some cs1 => (⟨200, "success"⟩, { st with callsigns := cs1 })

/-- The effective LIMIT of GET /api/admin/audit:
Math.min(parseInt(req.query.limit) || 100, 1000). The query parameter is
modelled already parsed: none for an absent or non-numeric value (parseInt
gives NaN, which is falsy), some n otherwise; 0 is falsy as well. -/
def effectiveLimit : Option Int → Int
  | none => min 100 1000
  | some n => if n = 0 then min 100 1000 else min n 1000

/-- Insert an audit row into a list kept in descending timestamp order. -/
def insertNewestFirst (e : AuditEntry) : List AuditEntry → List AuditEntry
  | [] => [e]
  | x :: xs =>
    if e.timestamp ≤ x.timestamp then x :: insertNewestFirst e xs
    else e :: x :: xs

/-- ORDER BY timestamp DESC of the audit rows, as a stable insertion
sort: the relative order of rows with equal timestamps is arbitrary in
SQLite and immaterial to the claims. -/
def auditNewestFirst : List AuditEntry → List AuditEntry
  | [] => []
  | x :: xs => insertNewestFirst x (auditNewestFirst xs)

/-- GET /api/admin/audit, body of the handler after requireAuth and
requireAdmin: SELECT * FROM audit_log ORDER BY timestamp DESC LIMIT ?.
SQLite treats a negative LIMIT as no limit. -/
def listRecentAudit (log : List AuditEntry) (qlimit : Option Int) : List AuditEntry :=
  let lim := effectiveLimit qlimit
  let sorted := auditNewestFirst log
  if lim < 0 then sorted else sorted.take lim.toNat

/-! Concrete fixtures used by witnesses and counterexamples. -/

/-- Concrete stand-in for bcrypt.compare in witnesses. -/
def exBC (p h : String) : Bool := p ++ "hash" = h

/-- Concrete stand-in for bcrypt.hash in witnesses. -/
def exHash (p : String) : String := p ++ "hash"

/-- Example user alice, owner of callsign aa. -/
def aliceU : User := ⟨1, "alice", "secret1hash", some "aa", false, none⟩

/-- Example user bob, owner of callsign bb. -/
def bobU : User := ⟨2, "bob", "secret2hash", some "bb", false, none⟩

/-- Example user root, an administrator with no callsign. -/
def adminU : User := ⟨3, "root", "secret3hash", none, true, none⟩

/-- Example sessions, all expiring at time 1000. -/
def aliceS : Session := ⟨"tokA", 1, 1000⟩

/-- Second session of alice, same user, different token. -/
def aliceS2 : Session := ⟨"tokA2", 1, 1000⟩

/-- Session of bob. -/
def bobS : Session := ⟨"tokB", 2, 1000⟩

/-- Session of the administrator. -/
def adminS : Session := ⟨"tokR", 3, 1000⟩

/-- Example config entry for callsign aa. -/
def confAA : CallsignConfig := ⟨"aa", "Alice Station", "qrzA", "tpA", "t0", none⟩

/-- Example config entry for callsign bb. -/
def confBB : CallsignConfig := ⟨"bb", "Bob Station", "qrzB", "tpB", "t0", none⟩

/-- Example server state with three users, four sessions, two configs
and an empty audit log. -/
def exState : ServerState :=
  ⟨[aliceU, bobU, adminU], [aliceS, aliceS2, bobS, adminS], [], [confAA, confBB]⟩

/-- Example audit log with a single entry. -/
def exAudit : List AuditEntry := [⟨5, some 1, some "alice", some "aa", "generator_access", none, "ip"⟩]

/-! Theorems about the claims. -/

/-- The requireCallsignAccess middleware grants access exactly when the
user is an admin or owns the requested callsign case-insensitively. -/
theorem requireCallsignAccess_none_iff (ctx : SessionContext) (requested : String) :
    requireCallsignAccess ctx requested = none ↔
      (ctx.isAdmin = true ∨
        ∃ cs, ctx.callsign = some cs ∧ jsLower cs = jsLower requested) := by
  unfold requireCallsignAccess
  cases hA : ctx.isAdmin with
  | true => simp
  | false =>
    cases hC : ctx.callsign with
    | none => simp
    | some c =>
      by_cases h : jsLower c = jsLower requested <;> simp [h]

/-- The middleware either passes the request on or answers 404 Not found. -/
theorem requireCallsignAccess_cases (ctx : SessionContext) (requested : String) :
    requireCallsignAccess ctx requested = none ∨
    requireCallsignAccess ctx requested = some ⟨404, "Not found"⟩ := by
  unfold requireCallsignAccess
  split
  · exact Or.inl rfl
  · split
    · split
      · exact Or.inl rfl
      · exact Or.inr rfl
    · exact Or.inr rfl

/-- C1: for every authenticated session context and requested callsign,
requireCallsignAccess grants access (calls next) iff the user is an
admin or the session callsign equals the requested one case-insensitively;
every denial is the response 404 Not found, never a 403; and the
protected card route surfaces a denial as that same 404 response. -/
theorem c1_authorization_decision (ctx : SessionContext) (requested : String)
    (st : ServerState) (now : Nat) (token : Option String) (fileExists : Bool) :
    (requireCallsignAccess ctx requested = none ↔
      (ctx.isAdmin = true ∨
        ∃ cs, ctx.callsign = some cs ∧ jsLower cs = jsLower requested))
    ∧ (∀ r, requireCallsignAccess ctx requested = some r →
        r = ⟨404, "Not found"⟩ ∧ r.status ≠ 403)
    ∧ (validateSession st now token = some ctx →
        requireCallsignAccess ctx requested = some ⟨404, "Not found"⟩ →
        cardPngRoute st now token requested fileExists = ⟨404, "Not found"⟩) := by
  refine ⟨requireCallsignAccess_none_iff ctx requested, ?_, ?_⟩
  · intro r hr
    rcases requireCallsignAccess_cases ctx requested with h | h
    · rw [h] at hr; exact absurd hr (by simp)
    · rw [h] at hr
      have : r = (⟨404, "Not found"⟩ : Response) := by
        exact (Option.some_injective _ hr.symm)
      exact ⟨this, by rw [this]; decide⟩
  · intro hv hd
    have hnone : ¬ requireCallsignAccess ctx requested = none := by
      rw [hd]; simp
    rw [requireCallsignAccess_none_iff] at hnone
    push_neg at hnone
    obtain ⟨hA, hcs⟩ := hnone
    have hA2 : ctx.isAdmin = false := by
      cases h : ctx.isAdmin
      · rfl
      · exact absurd h hA
    unfold cardPngRoute
    rw [hv]
    cases hC : ctx.callsign with
    | none => simp [hA2, hC]
    | some c =>
      have hne := hcs c hC
      simp [hA2, hC, hne]

/-- Witness for C1 at a concrete input: bob's session denied on alice's
callsign AA yields the 404 Not found response from the card route. -/
theorem c1_authorization_decision_witness :
    cardPngRoute exState 500 (some "tokB") "AA" true = ⟨404, "Not found"⟩ := by
  have h := c1_authorization_decision ⟨"tokB", 2, 1000, "bob", some "bb", false⟩ "AA"
    exState 500 (some "tokB") true
  exact h.2.2 (by decide) (by decide)

/-- C7: the login endpoint answers an unknown username and a known
username with a wrong password identically: both are the 401 response
with the generic Invalid credentials body (and neither changes state),
so the responses never reveal whether the username exists. -/
theorem c7_login_username_indistinguishable
    (st1 st2 : ServerState) (bc1 bc2 : String → String → Bool)
    (tk1 tk2 : String) (now1 now2 : Nat)
    (u1 p1 u2 p2 : Option String)
    (h1t : jsTruthy u1 = true) (h1p : jsTruthy p1 = true)
    (h1 : findUserByUsername st1.users (jsLower (u1.getD "")) = none)
    (h2t : jsTruthy u2 = true) (h2p : jsTruthy p2 = true)
    (user : User)
    (h2 : findUserByUsername st2.users (jsLower (u2.getD "")) = some user)
    (h2w : bc2 (p2.getD "") user.passwordHash = false) :
    (loginHandler st1 bc1 tk1 now1 u1 p1).1 = (loginHandler st2 bc2 tk2 now2 u2 p2).1
    ∧ (loginHandler st1 bc1 tk1 now1 u1 p1).1 = ⟨401, "Invalid credentials"⟩
    ∧ (loginHandler st1 bc1 tk1 now1 u1 p1).2 = st1
    ∧ (loginHandler st2 bc2 tk2 now2 u2 p2).2 = st2 := by
  unfold loginHandler
  simp [h1t, h1p, h2t, h2p, h1, h2, h2w]

/-- Witness for C7: the unknown username carol and alice with a wrong
password receive the same 401 Invalid credentials response. -/
theorem c7_login_username_indistinguishable_witness :
    (loginHandler exState exBC "t1" 0 (some "carol") (some "x")).1 =
      (loginHandler exState exBC "t2" 0 (some "alice") (some "wrong")).1 := by
  have h := c7_login_username_indistinguishable exState exState exBC exBC "t1" "t2" 0 0
    (some "carol") (some "x") (some "alice") (some "wrong")
    (by decide) (by decide) (by decide) (by decide) (by decide)
    aliceU (by decide) (by decide)
  exact h.1

/-- C9: the admin delete-user route refuses a self-targeted delete with
a 400 response and an unchanged state, and whatever the target id, the
acting admin's own user row survives the request. -/
theorem c9_no_self_delete (st : ServerState) (actingId targetId : Nat) :
    deleteUserHandler st actingId actingId = (⟨400, "Cannot delete your own account"⟩, st)
    ∧ (∀ u ∈ st.users, u.id = actingId →
        u ∈ (deleteUserHandler st actingId targetId).2.users) := by
  constructor
  · unfold deleteUserHandler
    simp
  · intro u hu hid
    unfold deleteUserHandler
    by_cases h : targetId = actingId
    · simp [h]
      exact hu
    · simp [h]
      split
      · simp [List.mem_filter]
        refine ⟨hu, ?_⟩
        rw [hid]
        intro hh
        exact h hh.symm
      · exact hu

/-- Witness for C9: the admin with id 3 cannot delete itself, and its
row survives a delete aimed at user 1. -/
theorem c9_no_self_delete_witness :
    deleteUserHandler exState 3 3 = (⟨400, "Cannot delete your own account"⟩, exState)
    ∧ adminU ∈ (deleteUserHandler exState 3 1).2.users := by
  exact ⟨(c9_no_self_delete exState 3 3).1,
         (c9_no_self_delete exState 3 1).2 adminU (by decide) (by decide)⟩

/-- C2 is refuted by the code: a successful login appends no audit row
at all, where the claim demands exactly one. -/
theorem c2_counterexample :
    (loginHandler exState exBC "newTok" 500 (some "alice") (some "secret1")).1.status = 200
    ∧ (loginHandler exState exBC "newTok" 500 (some "alice") (some "secret1")).2.auditLog = []
    ∧ ¬((loginHandler exState exBC "newTok" 500 (some "alice") (some "secret1")).2.auditLog.length
        = exState.auditLog.length + 1) := by
  decide

/-- C3 is refuted by the code: logAudit has no exception handling, so a
throwing audit insert turns alice's authorized generator-access request
from 200 into the Express 500 error: the outcome differs. -/
theorem c3_counterexample :
    (generatorAccessHandler exState 500 (some "tokA") "aa" true "ip").1 = ⟨200, "config"⟩
    ∧ (generatorAccessHandler exState 500 (some "tokA") "aa" false "ip").1 = expressError
    ∧ (generatorAccessHandler exState 500 (some "tokA") "aa" true "ip").1 ≠
        (generatorAccessHandler exState 500 (some "tokA") "aa" false "ip").1 := by
  decide

/-- C6 is refuted in its no-state-change part: an admin update of user 1
carrying both a new password and bob's already-taken callsign bb answers
409 yet has already overwritten the password hash. -/
theorem c6_counterexample :
    (putUserHandler exState exHash 1 (some "newpass123") (some (some "bb")) none).1.status = 409
    ∧ (putUserHandler exState exHash 1 (some "newpass123") (some (some "bb")) none).2 ≠ exState := by
  decide

/-- C8 is refuted at a requested limit of 0: parseInt(limit) yields the
falsy 0, the default 100 kicks in, and the one stored row is returned,
more than the requested 0. -/
theorem c8_counterexample :
    (listRecentAudit exAudit (some 0)).length = 1
    ∧ ¬((listRecentAudit exAudit (some 0)).length ≤ 0) := by
  decide

/-- With pairwise-distinct tokens (the PRIMARY KEY of the sessions
table), find? locates exactly the member session holding a token. -/
theorem findSession_eq_of_mem (ss : List Session) (tok : String) (s : Session)
    (huniq : ss.Pairwise (fun a b => a.token ≠ b.token))
    (hmem : s ∈ ss) (htok : s.token = tok) :
    findSession ss tok = some s := by
  induction ss with
  | nil => cases hmem
  | cons x xs ih =>
    rw [List.pairwise_cons] at huniq
    rcases List.mem_cons.mp hmem with h | h
    · subst h
      unfold findSession
      simp [htok]
    · have hx : ¬(x.token = tok) := by
        rw [← htok]
        exact huniq.1 s h
      unfold findSession
      rw [List.find?_cons_of_neg _ (by simpa using hx)]
      exact ih huniq.2 h

/-- C4: token resolution succeeds exactly when a session row with that
token exists, the current time is strictly before its expiry, and the
referenced user still exists; any null resolution surfaces to the
caller of a protected route as a 401 Unauthorized response. The
hypotheses record the schema facts that tokens are nonempty hex strings
and the primary key of the sessions table. -/
theorem c4_session_resolution (st : ServerState) (now : Nat) (token : Option String)
    (hne : ∀ s ∈ st.sessions, s.token ≠ "")
    (huniq : st.sessions.Pairwise (fun a b => a.token ≠ b.token)) :
    ((∃ ctx, validateSession st now token = some ctx) ↔
      (∃ tok, token = some tok ∧ ∃ s ∈ st.sessions, s.token = tok ∧ now < s.expiresAt ∧
        ∃ u ∈ st.users, u.id = s.userId))
    ∧ (validateSession st now token = none →
        ∀ cp fe, cardPngRoute st now token cp fe = ⟨401, "Unauthorized"⟩) := by
  constructor
  · constructor
    · rintro ⟨ctx, h⟩
      cases token with
      | none => simp [validateSession] at h
      | some tok =>
        unfold validateSession at h
        dsimp only at h
        by_cases he : tok = ""
        · simp [he] at h
        · rw [if_neg he] at h
          cases hf : findSession st.sessions tok with
          | none => rw [hf] at h; cases h
          | some s =>
            rw [hf] at h
            dsimp only at h
            by_cases hexp : now < s.expiresAt
            · rw [if_pos hexp] at h
              cases hu : findUserById st.users s.userId with
              | none => rw [hu] at h; cases h
              | some u =>
                refine ⟨tok, rfl, s, List.mem_of_find?_eq_some hf, ?_, hexp, u,
                  List.mem_of_find?_eq_some hu, ?_⟩
                · have := List.find?_some hf
                  simpa using this
                · have := List.find?_some hu
                  simpa using this
            · rw [if_neg hexp] at h; cases h
    · rintro ⟨tok, rfl, s, hmem, htok, hexp, u, humem, huid⟩
      have hf : findSession st.sessions tok = some s :=
        findSession_eq_of_mem _ _ _ huniq hmem htok
      have htne : ¬(tok = "") := by
        intro hh
        exact hne s hmem (htok.trans hh)
      have hus : (findUserById st.users s.userId).isSome := by
        apply List.find?_isSome.mpr
        exact ⟨u, humem, by simp [huid]⟩
      obtain ⟨u2, hu2⟩ := Option.isSome_iff_exists.mp hus
      refine ⟨⟨tok, s.userId, s.expiresAt, u2.username, u2.callsign, u2.isAdmin⟩, ?_⟩
      unfold validateSession
      dsimp only
      rw [if_neg htne, hf]
      dsimp only
      rw [if_pos hexp, hu2]
  · intro h cp fe
    unfold cardPngRoute
    rw [h]

/-- Witness for C4: bob's live token resolves at time 500, and alice's
token expired at time 2000 surfaces as 401 from the card route. -/
theorem c4_session_resolution_witness :
    (∃ ctx, validateSession exState 500 (some "tokB") = some ctx)
    ∧ cardPngRoute exState 2000 (some "tokA") "aa" true = ⟨401, "Unauthorized"⟩ := by
  have h500 := c4_session_resolution exState 500 (some "tokB") (by decide) (by decide)
  have h2000 := c4_session_resolution exState 2000 (some "tokA") (by decide) (by decide)
  constructor
  · exact h500.1.mpr ⟨"tokB", rfl, bobS, by decide, by decide, by decide,
      bobU, by decide, by decide⟩
  · exact h2000.2 (by decide) "aa" true

/-- What one config entry looks like after the PUT handlers touch it:
truthy body fields overwrite, falsy ones are kept, updatedAt is set,
id and createdAt are untouched. -/
def configUpdateSpec (c c1 : CallsignConfig) (nowStr : String)
    (name qrzLink textPositions : Option String) : Prop :=
  c1.id = c.id ∧ c1.createdAt = c.createdAt ∧ c1.updatedAt = some nowStr
  ∧ c1.name = (if jsTruthy name then name.getD "" else c.name)
  ∧ c1.qrzLink = (if jsTruthy qrzLink then qrzLink.getD "" else c.qrzLink)
  ∧ c1.textPositions = (if jsTruthy textPositions then textPositions.getD "" else c.textPositions)

/-- updateConfigFields satisfies configUpdateSpec. -/
theorem updateConfigFields_spec (c : CallsignConfig) (nowStr : String)
    (name qrzLink textPositions : Option String) :
    configUpdateSpec c (updateConfigFields c nowStr name qrzLink textPositions)
      nowStr name qrzLink textPositions := by
  unfold configUpdateSpec updateConfigFields
  refine ⟨rfl, rfl, rfl, rfl, rfl, rfl⟩

/-- A successful updateCallsignList run splits the store at the first
case-insensitive id match: everything before and after is returned
unchanged and only that entry is replaced by its field update. -/
theorem updateCallsignList_spec (cs : List CallsignConfig) (target nowStr : String)
    (name qrzLink textPositions : Option String) (cs1 : List CallsignConfig)
    (h : updateCallsignList cs target nowStr name qrzLink textPositions = some cs1) :
    ∃ pre c post,
      cs = pre ++ c :: post
      ∧ cs1 = pre ++ updateConfigFields c nowStr name qrzLink textPositions :: post
      ∧ (∀ c2 ∈ pre, jsLower c2.id ≠ jsLower target)
      ∧ jsLower c.id = jsLower target := by
  induction cs generalizing cs1 with
  | nil => simp [updateCallsignList] at h
  | cons x xs ih =>
    unfold updateCallsignList at h
    by_cases hm : jsLower x.id = jsLower target
    · rw [if_pos hm] at h
      injection h with h2
      exact ⟨[], x, xs, rfl, h2.symm, by simp, hm⟩
    · rw [if_neg hm] at h
      cases hrec : updateCallsignList xs target nowStr name qrzLink textPositions with
      | none => rw [hrec] at h; cases h
      | some rest1 =>
        rw [hrec] at h
        injection h with h2
        obtain ⟨pre, c, post, he1, he2, hpre, hc⟩ := ih rest1 hrec
        refine ⟨x :: pre, c, post, ?_, ?_, ?_, hc⟩
        · rw [he1]
          rfl
        · rw [← h2, he2]
          rfl
        · intro c2 hc2
          rcases List.mem_cons.mp hc2 with hx | hx
          · rw [hx]
            exact hm
          · exact hpre c2 hx

/-- C10: a successful callsign-config update (the shared core of the
self-service and admin PUT routes) answers 200, rewrites exactly the
first entry whose id matches case-insensitively, and on that entry only
the truthy body fields name, qrzLink and textPositions are overwritten,
falsy ones keep their value, id and createdAt are untouched, updatedAt
is set, and every other entry in the store is returned unchanged. -/
theorem c10_config_update_frame (st : ServerState) (target nowStr : String)
    (name qrzLink textPositions : Option String) (cs1 : List CallsignConfig)
    (h : updateCallsignList st.callsigns (jsLower target) nowStr
          name qrzLink textPositions = some cs1) :
    updateCallsignHandler st target nowStr name qrzLink textPositions =
      (⟨200, "config"⟩, { st with callsigns := cs1 })
    ∧ ∃ pre c post,
        st.callsigns = pre ++ c :: post
        ∧ cs1 = pre ++ updateConfigFields c nowStr name qrzLink textPositions :: post
        ∧ (∀ c2 ∈ pre, jsLower c2.id ≠ jsLower (jsLower target))
        ∧ jsLower c.id = jsLower (jsLower target)
        ∧ configUpdateSpec c (updateConfigFields c nowStr name qrzLink textPositions)
            nowStr name qrzLink textPositions := by
  constructor
  · unfold updateCallsignHandler
    rw [h]
  · obtain ⟨pre, c, post, he1, he2, hpre, hc⟩ :=
      updateCallsignList_spec _ _ _ _ _ _ _ h
    exact ⟨pre, c, post, he1, he2, hpre, hc,
      updateConfigFields_spec c nowStr name qrzLink textPositions⟩

/-- Witness for C10: updating bb with a new name and a falsy qrzLink
rewrites only the bb entry, keeps aa untouched, and keeps bb's id,
createdAt and qrzLink. -/
theorem c10_config_update_frame_witness :
    updateCallsignHandler exState "BB" "t9" (some "New Bob") none none =
      (⟨200, "config"⟩,
       { exState with callsigns := [confAA, ⟨"bb", "New Bob", "qrzB", "tpB", "t0", some "t9"⟩] }) := by
  have h := c10_config_update_frame exState "BB" "t9" (some "New Bob") none none
    [confAA, ⟨"bb", "New Bob", "qrzB", "tpB", "t0", some "t9"⟩] (by decide)
  exact h.1

/-- Members of an insertion are the inserted row or old members. -/
theorem mem_insertNewestFirst {e y : AuditEntry} {l : List AuditEntry}
    (h : y ∈ insertNewestFirst e l) : y = e ∨ y ∈ l := by
  induction l with
  | nil =>
    simp [insertNewestFirst] at h
    exact Or.inl h
  | cons x xs ih =>
    unfold insertNewestFirst at h
    by_cases hc : e.timestamp ≤ x.timestamp
    · rw [if_pos hc] at h
      rcases List.mem_cons.mp h with h1 | h1
      · exact Or.inr (h1 ▸ List.mem_cons_self x xs)
      · rcases ih h1 with h2 | h2
        · exact Or.inl h2
        · exact Or.inr (List.mem_cons_of_mem x h2)
    · rw [if_neg hc] at h
      rcases List.mem_cons.mp h with h1 | h1
      · exact Or.inl h1
      · exact Or.inr h1

/-- Inserting into a descending-by-timestamp list keeps it descending. -/
theorem pairwise_insertNewestFirst {e : AuditEntry} {l : List AuditEntry}
    (h : List.Pairwise (fun a b => b.timestamp ≤ a.timestamp) l) :
    List.Pairwise (fun a b => b.timestamp ≤ a.timestamp) (insertNewestFirst e l) := by
  induction l with
  | nil => simp [insertNewestFirst]
  | cons x xs ih =>
    rw [List.pairwise_cons] at h
    unfold insertNewestFirst
    by_cases hc : e.timestamp ≤ x.timestamp
    · rw [if_pos hc]
      rw [List.pairwise_cons]
      constructor
      · intro y hy
        rcases mem_insertNewestFirst hy with h1 | h1
        · rw [h1]
          exact hc
        · exact h.1 y h1
      · exact ih h.2
    · rw [if_neg hc]
      rw [List.pairwise_cons]
      constructor
      · intro y hy
        rcases List.mem_cons.mp hy with h1 | h1
        · rw [h1]
          omega
        · have := h.1 y h1
          omega
      · exact List.pairwise_cons.mpr h

/-- The sorted audit view is descending by timestamp. -/
theorem auditNewestFirst_pairwise (l : List AuditEntry) :
    List.Pairwise (fun a b => b.timestamp ≤ a.timestamp) (auditNewestFirst l) := by
  induction l with
  | nil => simp [auditNewestFirst]
  | cons x xs ih => exact pairwise_insertNewestFirst ih

/-- C8 amended: the audit listing defaults its limit to 100 when the
query parameter is absent or the falsy 0, caps a positive requested
limit at 1000, returns at most that many rows, and the rows come
newest first by timestamp. -/
theorem c8_audit_listing (log : List AuditEntry) (qlimit : Option Int) :
    effectiveLimit none = 100
    ∧ effectiveLimit (some 0) = 100
    ∧ (∀ n : Int, 0 < n → (listRecentAudit log (some n)).length ≤ (min n 1000).toNat)
    ∧ (listRecentAudit log none).length ≤ 100
    ∧ List.Pairwise (fun a b => b.timestamp ≤ a.timestamp) (listRecentAudit log qlimit) := by
  refine ⟨by decide, by decide, ?_, ?_, ?_⟩
  · intro n hn
    unfold listRecentAudit
    have hne : ¬(n = 0) := by omega
    have hlim : effectiveLimit (some n) = min n 1000 := by
      unfold effectiveLimit
      dsimp only
      rw [if_neg hne]
    rw [hlim]
    have hnn : ¬(min n 1000 < 0) := by
      rw [Int.not_lt]
      exact le_min (by omega) (by omega)
    rw [if_neg hnn]
    rw [List.length_take]
    exact Nat.min_le_left _ _
  · unfold listRecentAudit
    have h100 : effectiveLimit none = 100 := by decide
    rw [h100]
    have hp : ¬((100 : Int) < 0) := by decide
    rw [if_neg hp]
    rw [List.length_take]
    have ht : ((100 : Int)).toNat = 100 := by decide
    rw [ht]
    exact Nat.min_le_left _ _
  · unfold listRecentAudit
    by_cases hneg : effectiveLimit qlimit < 0
    · rw [if_pos hneg]
      exact auditNewestFirst_pairwise log
    · rw [if_neg hneg]
      exact (auditNewestFirst_pairwise log).sublist (List.take_sublist _ _)

/-- Witness for C8 amended: a positive requested limit of 5 on the
one-row example log yields at most 5 rows. -/
theorem c8_audit_listing_witness :
    (listRecentAudit exAudit (some 5)).length ≤ (min (5 : Int) 1000).toNat := by
  exact (c8_audit_listing exAudit (some 5)).2.2.1 5 (by decide)

/-- C2 amended: logins (successful or failed), logout, password
changes, and the admin user and callsign mutations append no audit row
at all; only the generator access route (granted or denied) and the
card download route append rows, each exactly one, with the action
drawn from the fixed set containing generator_access,
generator_access_denied and card_generated. -/
theorem c2_audit_behavior (st : ServerState) (bc : String → String → Bool)
    (hashFn : String → String) (tk : String) (now newId uid aid tid : Nat)
    (token : Option String) (u p cp np un pw cs idf nm qz tp targ : Option String)
    (csF : Option (Option String)) (adF : Option Bool) (adm : Bool)
    (cpar nowStr ip : String) :
    (loginHandler st bc tk now u p).2.auditLog = st.auditLog
    ∧ (logoutHandler st now token).2.auditLog = st.auditLog
    ∧ (changePasswordHandler st now bc hashFn token cp np).2.auditLog = st.auditLog
    ∧ (createUserHandler st hashFn newId un pw cs adm).2.auditLog = st.auditLog
    ∧ (putUserHandler st hashFn uid pw csF adF).2.auditLog = st.auditLog
    ∧ (deleteUserHandler st aid tid).2.auditLog = st.auditLog
    ∧ (createCallsignHandler st nowStr idf nm qz tp).2.auditLog = st.auditLog
    ∧ (updateCallsignHandler st cpar nowStr nm qz tp).2.auditLog = st.auditLog
    ∧ (deleteCallsignHandler st cpar).2.auditLog = st.auditLog
    ∧ ((generatorAccessHandler st now token cpar true ip).2.auditLog = st.auditLog
       ∨ ∃ e, (generatorAccessHandler st now token cpar true ip).2.auditLog = st.auditLog ++ [e]
           ∧ (e.action = "generator_access" ∨ e.action = "generator_access_denied"))
    ∧ ((downloadHandler st now token cpar targ true ip).2.auditLog = st.auditLog
       ∨ ∃ e, (downloadHandler st now token cpar targ true ip).2.auditLog = st.auditLog ++ [e]
           ∧ e.action = "card_generated") := by
  refine ⟨?_, ?_, ?_, ?_, ?_, ?_, ?_, ?_, ?_, ?_, ?_⟩
  · unfold loginHandler
    try dsimp only
    repeat' split
    all_goals rfl
  · unfold logoutHandler
    try dsimp only
    repeat' split
    all_goals rfl
  · unfold changePasswordHandler
    try dsimp only
    repeat' split
    all_goals rfl
  · unfold createUserHandler
    try dsimp only
    repeat' split
    all_goals rfl
  · unfold putUserHandler putUserCallsignPhase putUserApplyAdmin
    try dsimp only
    repeat' split
    all_goals rfl
  · unfold deleteUserHandler
    try dsimp only
    repeat' split
    all_goals rfl
  · unfold createCallsignHandler
    try dsimp only
    repeat' split
    all_goals rfl
  · unfold updateCallsignHandler
    try dsimp only
    repeat' split
    all_goals rfl
  · unfold deleteCallsignHandler
    try dsimp only
    repeat' split
    all_goals rfl
  · unfold generatorAccessHandler
    split
    · exact Or.inl rfl
    · dsimp only
      split
      · exact Or.inr ⟨_, rfl, Or.inr rfl⟩
      · split
        · exact Or.inl rfl
        · exact Or.inr ⟨_, rfl, Or.inl rfl⟩
  · unfold downloadHandler
    split
    · exact Or.inl rfl
    · dsimp only
      split
      · exact Or.inl rfl
      · exact Or.inr ⟨_, rfl, rfl⟩

/-- C3 amended: logAudit has no exception handling, so an audit write
failure is not swallowed: whenever a generator access or card download
request would append an audit row, the same request with a throwing
audit insert ends as the Express 500 error with no state change,
instead of its normal outcome. -/
theorem c3_audit_failure_propagates (st : ServerState) (now : Nat)
    (token : Option String) (cpar : String) (targ : Option String) (ip : String) :
    ((generatorAccessHandler st now token cpar true ip).2.auditLog ≠ st.auditLog →
      generatorAccessHandler st now token cpar false ip = (expressError, st))
    ∧ ((downloadHandler st now token cpar targ true ip).2.auditLog ≠ st.auditLog →
      downloadHandler st now token cpar targ false ip = (expressError, st)) := by
  constructor
  · intro hne
    unfold generatorAccessHandler at hne ⊢
    cases hv : validateSession st now token with
    | none =>
      rw [hv] at hne
      exact absurd rfl hne
    | some ctx =>
      rw [hv] at hne
      dsimp only at hne ⊢
      split at hne
      · next howns =>
        rw [if_pos howns]
        rfl
      · next howns =>
        rw [if_neg howns]
        cases hconf : getCallsignConfig st.callsigns (jsLower cpar) with
        | none =>
          rw [hconf] at hne
          exact absurd rfl hne
        | some c =>
          rfl
  · intro hne
    unfold downloadHandler at hne ⊢
    cases hv : validateSession st now token with
    | none =>
      rw [hv] at hne
      exact absurd rfl hne
    | some ctx =>
      rw [hv] at hne
      dsimp only at hne ⊢
      split at hne
      · next howns =>
        exact absurd rfl hne
      · next howns =>
        rw [if_neg howns]
        rfl

/-- Witness for C3 amended: alice's authorized access to aa would
append an audit row, and with a failing audit insert the request ends
as the 500 error instead. -/
theorem c3_audit_failure_propagates_witness :
    generatorAccessHandler exState 500 (some "tokA") "aa" false "ip" =
      (expressError, exState) := by
  exact (c3_audit_failure_propagates exState 500 (some "tokA") "aa" none "ip").1 (by decide)

/-- Inversion of a successful token resolution: the session row and the
joined user row exist with the context's fields. -/
theorem validateSession_inv (st : ServerState) (now : Nat) (tok : String)
    (ctx : SessionContext) (h : validateSession st now (some tok) = some ctx) :
    tok ≠ "" ∧ ctx.token = tok
    ∧ findSession st.sessions tok = some ⟨tok, ctx.userId, ctx.expiresAt⟩
    ∧ now < ctx.expiresAt
    ∧ ∃ u, findUserById st.users ctx.userId = some u ∧ u.id = ctx.userId
        ∧ u.username = ctx.username ∧ u.callsign = ctx.callsign
        ∧ u.isAdmin = ctx.isAdmin := by
  unfold validateSession at h
  dsimp only at h
  by_cases he : tok = ""
  · rw [if_pos he] at h
    cases h
  · rw [if_neg he] at h
    cases hf : findSession st.sessions tok with
    | none => rw [hf] at h; cases h
    | some s =>
      rw [hf] at h
      dsimp only at h
      by_cases hexp : now < s.expiresAt
      · rw [if_pos hexp] at h
        cases hu : findUserById st.users s.userId with
        | none => rw [hu] at h; cases h
        | some u =>
          rw [hu] at h
          injection h with h2
          subst h2
          have hsid : s.token = tok := by
            have := List.find?_some hf
            simpa using this
          have huid : u.id = s.userId := by
            have := List.find?_some hu
            simpa using this
          have hfs : some s = some (⟨tok, s.userId, s.expiresAt⟩ : Session) := by
            rw [← hsid]
          exact ⟨he, rfl, hfs, hexp, u, hu, huid, rfl, rfl, rfl⟩
      · rw [if_neg hexp] at h
        cases h

/-- Inversion of a 200 from the password-change route: the handler took
the success branch, replacing the hash and revoking sibling sessions. -/
theorem changePasswordHandler_success_inv (st : ServerState) (now : Nat)
    (bc : String → String → Bool) (hashFn : String → String) (tok : String)
    (cur np : Option String) (ctx : SessionContext)
    (hv : validateSession st now (some tok) = some ctx)
    (h200 : (changePasswordHandler st now bc hashFn (some tok) cur np).1.status = 200) :
    ∃ user, findUserById st.users ctx.userId = some user ∧ user.id = ctx.userId
    ∧ changePasswordHandler st now bc hashFn (some tok) cur np =
      (⟨200, "success"⟩,
       { st with
         users := updateUserRow st.users user.id
           (fun u => { u with passwordHash := hashFn (np.getD "") }),
         sessions := st.sessions.filter
           (fun s => ¬(s.userId = user.id ∧ s.token ≠ ctx.token)) }) := by
  unfold changePasswordHandler at h200 ⊢
  rw [hv] at h200 ⊢
  dsimp only at h200 ⊢
  by_cases ht : jsTruthy cur = true ∧ jsTruthy np = true
  · rw [if_neg (by simp [ht.1, ht.2])] at h200 ⊢
    by_cases hlen : (np.getD "").length < 8
    · rw [if_pos hlen] at h200
      simp at h200
    · rw [if_neg hlen] at h200 ⊢
      cases hu : findUserById st.users ctx.userId with
      | none =>
        rw [hu] at h200
        simp [expressError] at h200
      | some user =>
        rw [hu] at h200
        dsimp only at h200 ⊢
        by_cases hbc : bc (cur.getD "") user.passwordHash = true
        · have huid : user.id = ctx.userId := by
            have := List.find?_some hu
            simpa using this
          refine ⟨user, rfl, huid, ?_⟩
          rw [if_pos hbc]
        · rw [if_neg hbc] at h200
          simp at h200
  · rw [if_pos (by simpa using (fun hh : jsTruthy cur = true ∧ jsTruthy np = true => ht hh))] at h200
    simp at h200

/-- After revoking every session of uid except token tok, the sessions
of uid are exactly the one holding tok. -/
theorem revoke_filter_singleton (l : List Session) (uid : Nat) (tok : String)
    (s0 : Session)
    (huniq : l.Pairwise (fun a b => a.token ≠ b.token))
    (hmem : s0 ∈ l) (ht : s0.token = tok) (hu : s0.userId = uid) :
    ((l.filter (fun s => ¬(s.userId = uid ∧ s.token ≠ tok))).filter
        (fun s => s.userId = uid)) = [s0] := by
  induction l with
  | nil => cases hmem
  | cons x xs ih =>
    rw [List.pairwise_cons] at huniq
    rcases List.mem_cons.mp hmem with hx | hx
    · subst hx
      rw [List.filter_cons_of_pos (by simp [ht])]
      rw [List.filter_cons_of_pos (by simp [hu])]
      have hrest : ((xs.filter (fun s => ¬(s.userId = uid ∧ s.token ≠ tok))).filter
          (fun s => s.userId = uid)) = [] := by
        apply List.filter_eq_nil_iff.mpr
        intro y hy
        have hyx : y ∈ xs := List.mem_of_mem_filter hy
        have hyp := List.of_mem_filter hy
        have hytok : y.token ≠ tok := by
          rw [← ht]
          intro hh
          exact huniq.1 y hyx hh.symm
        simp at hyp ⊢
        intro hcontra
        rcases hyp with h1 | h1
        · exact absurd hcontra h1
        · exact absurd h1 hytok
      rw [hrest]
    · by_cases hp1 : x.userId = uid ∧ x.token ≠ tok
      · rw [List.filter_cons_of_neg (by simp [hp1.1, hp1.2])]
        exact ih huniq.2 hx
      · rw [List.filter_cons_of_pos (by
          simp
          rcases Decidable.em (x.userId = uid) with hA | hA
          · refine Or.inr ?_
            by_contra hc
            exact hp1 ⟨hA, hc⟩
          · exact Or.inl hA)]
        have hxuid : ¬(x.userId = uid) := by
          intro hxu
          have hxtok : x.token = tok := by
            by_contra hc
            exact hp1 ⟨hxu, hc⟩
          have hne2 : x.token ≠ s0.token := huniq.1 s0 hx
          rw [hxtok, ht] at hne2
          exact hne2 rfl
        rw [List.filter_cons_of_neg (by simpa using hxuid)]
        exact ih huniq.2 hx

/-- Looking a user up by id after a row update that preserves ids finds
the updated row. -/
theorem findUserById_updateUserRow (us : List User) (uid target : Nat)
    (f : User → User) (hf : ∀ u, (f u).id = u.id) :
    findUserById (updateUserRow us target f) uid =
      (findUserById us uid).map (fun u => if u.id = target then f u else u) := by
  induction us with
  | nil => rfl
  | cons x xs ih =>
    unfold updateUserRow at ih ⊢
    unfold findUserById at ih ⊢
    by_cases hx : x.id = uid
    · rw [List.map_cons]
      rw [List.find?_cons_of_pos _ (by
        by_cases hxt : x.id = target
        · rw [if_pos hxt]
          simp [hf, hx]
        · rw [if_neg hxt]
          simp [hx])]
      rw [List.find?_cons_of_pos _ (by simp [hx])]
      rfl
    · rw [List.map_cons]
      rw [List.find?_cons_of_neg _ (by
        by_cases hxt : x.id = target
        · rw [if_pos hxt]
          simp [hf, hx]
        · rw [if_neg hxt]
          simp [hx])]
      rw [List.find?_cons_of_neg _ (by simp [hx])]
      exact ih

/-- C5: after a successful password change performed through token tok,
the user's sessions are exactly the acting one, the acting token still
resolves, and any other token the user held before no longer resolves.
Token uniqueness is the PRIMARY KEY of the sessions table. -/
theorem c5_password_change_revokes_others
    (st : ServerState) (now : Nat) (tok : String)
    (bc : String → String → Bool) (hashFn : String → String)
    (cur np : Option String) (ctx : SessionContext)
    (huniq : st.sessions.Pairwise (fun a b => a.token ≠ b.token))
    (hv : validateSession st now (some tok) = some ctx)
    (h200 : (changePasswordHandler st now bc hashFn (some tok) cur np).1.status = 200) :
    ((changePasswordHandler st now bc hashFn (some tok) cur np).2.sessions.filter
        (fun s => s.userId = ctx.userId)) = [⟨tok, ctx.userId, ctx.expiresAt⟩]
    ∧ (∃ ctx2, validateSession
        (changePasswordHandler st now bc hashFn (some tok) cur np).2 now (some tok) = some ctx2)
    ∧ (∀ t, t ≠ tok →
        (∃ s1 ∈ st.sessions, s1.token = t ∧ s1.userId = ctx.userId) →
        validateSession (changePasswordHandler st now bc hashFn (some tok) cur np).2
          now (some t) = none) := by
  obtain ⟨user, hu, huid, heq⟩ :=
    changePasswordHandler_success_inv st now bc hashFn tok cur np ctx hv h200
  obtain ⟨htne, hct, hfs, hexp, u0, hu0, hu0id, hname, hcs, hadm⟩ :=
    validateSession_inv st now tok ctx hv
  have hsymm : Symmetric (fun a b : Session => a.token ≠ b.token) :=
    fun x y h hh => h hh.symm
  have huniq2 : ∀ a ∈ st.sessions, ∀ b ∈ st.sessions, a.token = b.token → a = b := by
    intro a ha b hb htok2
    by_contra hne3
    exact (List.Pairwise.forall hsymm huniq ha hb hne3) htok2
  rw [heq]
  dsimp only
  refine ⟨?_, ?_, ?_⟩
  · simp only [huid, hct]
    exact revoke_filter_singleton st.sessions ctx.userId tok ⟨tok, ctx.userId, ctx.expiresAt⟩
      huniq (List.mem_of_find?_eq_some hfs) rfl rfl
  · have hpair2 : (st.sessions.filter
        (fun s => ¬(s.userId = user.id ∧ s.token ≠ ctx.token))).Pairwise
          (fun a b => a.token ≠ b.token) :=
      List.Pairwise.filter _ huniq
    have hmem2 : (⟨tok, ctx.userId, ctx.expiresAt⟩ : Session) ∈
        st.sessions.filter (fun s => ¬(s.userId = user.id ∧ s.token ≠ ctx.token)) := by
      rw [List.mem_filter]
      refine ⟨List.mem_of_find?_eq_some hfs, ?_⟩
      simp [hct]
    have hfs2 : findSession (st.sessions.filter
        (fun s => ¬(s.userId = user.id ∧ s.token ≠ ctx.token))) tok
        = some ⟨tok, ctx.userId, ctx.expiresAt⟩ :=
      findSession_eq_of_mem _ _ _ hpair2 hmem2 rfl
    have hu2 : findUserById (updateUserRow st.users user.id
          (fun u => { u with passwordHash := hashFn (np.getD "") })) ctx.userId
        = some { user with passwordHash := hashFn (np.getD "") } := by
      rw [findUserById_updateUserRow st.users ctx.userId user.id
        (fun u => { u with passwordHash := hashFn (np.getD "") }) (fun u => rfl)]
      rw [hu]
      simp [huid]
    refine ⟨⟨tok, ctx.userId, ctx.expiresAt, user.username, user.callsign, user.isAdmin⟩, ?_⟩
    unfold validateSession
    dsimp only
    rw [if_neg htne, hfs2]
    dsimp only
    rw [if_pos hexp, hu2]
  · rintro t htne2 ⟨s1, hs1mem, hs1tok, hs1uid⟩
    by_cases hte : t = ""
    · unfold validateSession
      dsimp only
      rw [if_pos hte]
    · have hnone : findSession (st.sessions.filter
          (fun s => ¬(s.userId = user.id ∧ s.token ≠ ctx.token))) t = none := by
        unfold findSession
        rw [List.find?_eq_none]
        intro y hy
        rw [List.mem_filter] at hy
        obtain ⟨hymem, hyp⟩ := hy
        simp only [decide_eq_true_eq]
        intro hyt
        have hy1 : y = s1 := huniq2 y hymem s1 hs1mem (hyt.trans hs1tok.symm)
        subst hy1
        simp at hyp
        rw [huid] at hyp
        rcases hyp with h1 | h1
        · exact h1 hs1uid
        · rw [hct] at h1
          exact htne2 (hs1tok.symm.trans h1)
      unfold validateSession
      dsimp only
      rw [if_neg hte, hnone]

/-- Witness for C5: alice changes her password through tokA; afterwards
her sessions are exactly tokA and her second token tokA2 is dead. -/
theorem c5_password_change_revokes_others_witness :
    ((changePasswordHandler exState 500 exBC exHash (some "tokA")
        (some "secret1") (some "newpass123")).2.sessions.filter
        (fun s => s.userId = 1)) = [⟨"tokA", 1, 1000⟩]
    ∧ validateSession (changePasswordHandler exState 500 exBC exHash (some "tokA")
        (some "secret1") (some "newpass123")).2 500 (some "tokA2") = none := by
  have h := c5_password_change_revokes_others exState 500 "tokA" exBC exHash
    (some "secret1") (some "newpass123") ⟨"tokA", 1, 1000, "alice", some "aa", false⟩
    (by decide) (by decide) (by decide)
  exact ⟨h.1, h.2.2 "tokA2" (by decide) ⟨aliceS2, by decide, by decide, by decide⟩⟩

/-- The invariant of C6: at most one user holds a given non-null
callsign — two users with different ids never share a callsign value. -/
def callsignUniq (us : List User) : Prop :=
  ∀ u ∈ us, ∀ v ∈ us, u.id ≠ v.id → ∀ c, u.callsign = some c → v.callsign ≠ some c

/-- Row maps that keep id and callsign keep the uniqueness invariant. -/
theorem callsignUniq_map (us : List User) (f : User → User)
    (hf : ∀ u, (f u).id = u.id ∧ (f u).callsign = u.callsign)
    (h : callsignUniq us) : callsignUniq (us.map f) := by
  intro u hu v hv hne c hc
  obtain ⟨u0, hu0, rfl⟩ := List.mem_map.mp hu
  obtain ⟨v0, hv0, rfl⟩ := List.mem_map.mp hv
  rw [(hf v0).2]
  apply h u0 hu0 v0 hv0
  · rw [(hf u0).1, (hf v0).1] at hne
    exact hne
  · rw [← (hf u0).2]
    exact hc

/-- Setting the target row's callsign to a value no other user holds
keeps the uniqueness invariant. -/
theorem callsignUniq_setCallsign (us : List User) (uid : Nat) (newCs : Option String)
    (h : callsignUniq us)
    (hnoother : ∀ c, newCs = some c → ∀ v ∈ us, v.id ≠ uid → v.callsign ≠ some c) :
    callsignUniq (us.map (fun u => if u.id = uid then { u with callsign := newCs } else u)) := by
  intro u hu v hv hne c hc
  obtain ⟨u0, hu0, rfl⟩ := List.mem_map.mp hu
  obtain ⟨v0, hv0, rfl⟩ := List.mem_map.mp hv
  have hidu : (if u0.id = uid then { u0 with callsign := newCs } else u0).id = u0.id := by
    by_cases h0 : u0.id = uid <;> simp [h0]
  have hidv : (if v0.id = uid then { v0 with callsign := newCs } else v0).id = v0.id := by
    by_cases h0 : v0.id = uid <;> simp [h0]
  rw [hidu, hidv] at hne
  by_cases hu0t : u0.id = uid <;> by_cases hv0t : v0.id = uid
  · exact absurd (hu0t.trans hv0t.symm) hne
  · rw [if_pos hu0t] at hc
    rw [if_neg hv0t]
    exact hnoother c hc v0 hv0 hv0t
  · rw [if_neg hu0t] at hc
    rw [if_pos hv0t]
    intro hcon
    exact hnoother c hcon u0 hu0 hu0t hc
  · rw [if_neg hu0t] at hc
    rw [if_neg hv0t]
    exact h u0 hu0 v0 hv0 hne c hc

/-- Appending a user whose callsign no existing user holds keeps the
uniqueness invariant. -/
theorem callsignUniq_append (us : List User) (nu : User)
    (h : callsignUniq us)
    (hno : ∀ c, nu.callsign = some c → ∀ v ∈ us, v.callsign ≠ some c) :
    callsignUniq (us ++ [nu]) := by
  intro u hu v hv hne c hc
  rcases List.mem_append.mp hu with hu1 | hu1 <;> rcases List.mem_append.mp hv with hv1 | hv1
  · exact h u hu1 v hv1 hne c hc
  · have hv2 : v = nu := by simpa using hv1
    subst hv2
    intro hcon
    exact hno c hcon u hu1 hc
  · have hu2 : u = nu := by simpa using hu1
    subst hu2
    exact hno c hc v hv1
  · have hu2 : u = nu := by simpa using hu1
    have hv2 : v = nu := by simpa using hv1
    rw [hu2, hv2] at hne
    exact absurd rfl hne

/-- The is_admin step keeps the uniqueness invariant. -/
theorem putUserApplyAdmin_preserves (st2 : ServerState) (uid : Nat) (adF : Option Bool)
    (h : callsignUniq st2.users) :
    callsignUniq (putUserApplyAdmin st2 uid adF).2.users := by
  unfold putUserApplyAdmin
  cases adF with
  | none => exact h
  | some b =>
    dsimp only
    unfold updateUserRow
    apply callsignUniq_map _ _ _ h
    intro u
    by_cases h0 : u.id = uid <;> simp [h0]

/-- The callsign step keeps the uniqueness invariant. -/
theorem putUserCallsignPhase_preserves (st1 : ServerState) (uid : Nat)
    (csF : Option (Option String)) (adF : Option Bool)
    (h : callsignUniq st1.users) :
    callsignUniq (putUserCallsignPhase st1 uid csF adF).2.users := by
  unfold putUserCallsignPhase
  cases csF with
  | none => exact putUserApplyAdmin_preserves _ _ _ h
  | some csOpt =>
    dsimp only
    by_cases hcond : jsTruthy csOpt = true ∧
        (st1.users.any (fun u => u.callsign = some (jsLower (csOpt.getD "")) ∧ u.id ≠ uid)) = true
    · rw [if_pos hcond]
      exact h
    · rw [if_neg hcond]
      apply putUserApplyAdmin_preserves
      dsimp only
      unfold updateUserRow
      apply callsignUniq_setCallsign _ _ _ h
      intro c hc v hv hvid
      by_cases hcs : jsTruthy csOpt = true
      · rw [if_pos hcs] at hc
        injection hc with hc2
        subst hc2
        intro hvc
        apply hcond
        refine ⟨hcs, ?_⟩
        rw [List.any_eq_true]
        exact ⟨v, hv, by simp [hvc, hvid]⟩
      · rw [if_neg hcs] at hc
        cases hc

/-- putUserHandler keeps the uniqueness invariant. -/
theorem putUserHandler_preserves (st : ServerState) (hashFn : String → String)
    (uid : Nat) (pw : Option String) (csF : Option (Option String)) (adF : Option Bool)
    (h : callsignUniq st.users) :
    callsignUniq (putUserHandler st hashFn uid pw csF adF).2.users := by
  unfold putUserHandler
  cases hfind : findUserById st.users uid with
  | none => exact h
  | some u =>
    dsimp only
    by_cases hbad : jsTruthy pw = true ∧ (pw.getD "").length < 8
    · rw [if_pos hbad]
      exact h
    · rw [if_neg hbad]
      by_cases hpw : jsTruthy pw = true
      · rw [if_pos hpw]
        apply putUserCallsignPhase_preserves
        dsimp only
        unfold updateUserRow
        apply callsignUniq_map _ _ _ h
        intro v
        by_cases h0 : v.id = uid <;> simp [h0]
      · rw [if_neg hpw]
        exact putUserCallsignPhase_preserves _ _ _ _ h

/-- createUserHandler keeps the uniqueness invariant. -/
theorem createUserHandler_preserves (st : ServerState) (hashFn : String → String)
    (newId : Nat) (un pw cs : Option String) (adm : Bool)
    (h : callsignUniq st.users) :
    callsignUniq (createUserHandler st hashFn newId un pw cs adm).2.users := by
  unfold createUserHandler
  by_cases ht : jsTruthy un = true ∧ jsTruthy pw = true
  · rw [if_neg (by simp [ht.1, ht.2])]
    by_cases hlen : (pw.getD "").length < 8
    · rw [if_pos hlen]
      exact h
    · rw [if_neg hlen]
      dsimp only
      cases hex : findUserByUsername st.users (jsLower (un.getD "")) with
      | some v => exact h
      | none =>
        dsimp only
        by_cases hcs : jsTruthy cs = true
        · rw [if_pos hcs]
          cases hconf : getCallsignConfig st.callsigns (cs.getD "") with
          | none => exact h
          | some conf =>
            dsimp only
            cases hassign : findUserByCallsign st.users (jsLower (cs.getD "")) with
            | some v => exact h
            | none =>
              dsimp only
              apply callsignUniq_append _ _ h
              intro c hc v hv
              injection hc with hc2
              subst hc2
              have := List.find?_eq_none.mp hassign v hv
              simpa using this
        · rw [if_neg hcs]
          apply callsignUniq_append _ _ h
          intro c hc
          cases hc
  · rw [if_pos (by simpa using (fun hh : jsTruthy un = true ∧ jsTruthy pw = true => ht hh))]
    exact h

/-- The is_admin step always answers 200 updated. -/
theorem putUserApplyAdmin_status (st2 : ServerState) (uid : Nat) (adF : Option Bool) :
    (putUserApplyAdmin st2 uid adF).1 = ⟨200, "updated"⟩ := by
  unfold putUserApplyAdmin
  cases adF <;> rfl

/-- A 409 from the callsign step returns the incoming state untouched. -/
theorem putUserCallsignPhase_409 (st1 : ServerState) (uid : Nat)
    (csF : Option (Option String)) (adF : Option Bool)
    (h : (putUserCallsignPhase st1 uid csF adF).1.status = 409) :
    (putUserCallsignPhase st1 uid csF adF).2 = st1 := by
  unfold putUserCallsignPhase at h ⊢
  cases csF with
  | none =>
    rw [putUserApplyAdmin_status] at h
    simp at h
  | some csOpt =>
    dsimp only at h ⊢
    by_cases hcond : jsTruthy csOpt = true ∧
        (st1.users.any (fun u => u.callsign = some (jsLower (csOpt.getD "")) ∧ u.id ≠ uid)) = true
    · rw [if_pos hcond]
    · rw [if_neg hcond] at h
      rw [putUserApplyAdmin_status] at h
      simp at h

/-- C6 amended: a conflicting callsign on user creation is rejected
with 409 (or an earlier 400) and changes nothing; a conflicting
callsign on user update answers 409 and leaves every user's id/callsign
binding unchanged (a password sent in the same request may already have
been applied, which is what refutes the original claim); reassigning a
user's own callsign to the same value succeeds and is a no-op; and both
the create and the update handler preserve the invariant that at most
one user holds a given non-null callsign. -/
theorem c6_callsign_uniqueness (st : ServerState) (hashFn : String → String)
    (newId uid : Nat) (un pw cs : Option String) (adm : Bool)
    (pwd : Option String) (csF : Option (Option String)) (adF : Option Bool)
    (c : String) (u assigned : User) :
    (callsignUniq st.users →
      callsignUniq (createUserHandler st hashFn newId un pw cs adm).2.users)
    ∧ (callsignUniq st.users →
      callsignUniq (putUserHandler st hashFn uid pwd csF adF).2.users)
    ∧ ((putUserHandler st hashFn uid pwd csF adF).1.status = 409 →
      (putUserHandler st hashFn uid pwd csF adF).2.users.map (fun v => (v.id, v.callsign))
        = st.users.map (fun v => (v.id, v.callsign)))
    ∧ (jsTruthy cs = true →
      findUserByCallsign st.users (jsLower (cs.getD "")) = some assigned →
      (createUserHandler st hashFn newId un pw cs adm).2 = st
      ∧ ((createUserHandler st hashFn newId un pw cs adm).1.status = 400
         ∨ (createUserHandler st hashFn newId un pw cs adm).1.status = 409))
    ∧ (callsignUniq st.users →
      st.users.Pairwise (fun a b => a.id ≠ b.id) →
      findUserById st.users uid = some u →
      u.callsign = some (jsLower c) →
      c ≠ "" →
      putUserHandler st hashFn uid none (some (some c)) none = (⟨200, "updated"⟩, st)) := by
  refine ⟨createUserHandler_preserves st hashFn newId un pw cs adm,
          putUserHandler_preserves st hashFn uid pwd csF adF, ?_, ?_, ?_⟩
  · intro h409
    unfold putUserHandler at h409 ⊢
    cases hfind : findUserById st.users uid with
    | none =>
      rw [hfind] at h409
    | some w =>
      rw [hfind] at h409
      dsimp only at h409 ⊢
      by_cases hbad : jsTruthy pwd = true ∧ (pwd.getD "").length < 8
      · rw [if_pos hbad] at h409
        simp at h409
      · rw [if_neg hbad] at h409 ⊢
        by_cases hpw : jsTruthy pwd = true
        · rw [if_pos hpw] at h409 ⊢
          rw [putUserCallsignPhase_409 _ _ _ _ h409]
          dsimp only
          unfold updateUserRow
          rw [List.map_map]
          apply List.map_congr_left
          intro v hv
          by_cases h0 : v.id = uid <;> simp [h0]
        · rw [if_neg hpw] at h409 ⊢
          rw [putUserCallsignPhase_409 _ _ _ _ h409]
  · intro hcs hassign
    unfold createUserHandler
    by_cases ht : jsTruthy un = true ∧ jsTruthy pw = true
    · rw [if_neg (by simp [ht.1, ht.2])]
      by_cases hlen : (pw.getD "").length < 8
      · rw [if_pos hlen]
        exact ⟨rfl, Or.inl rfl⟩
      · rw [if_neg hlen]
        dsimp only
        cases hex : findUserByUsername st.users (jsLower (un.getD "")) with
        | some v => exact ⟨rfl, Or.inr rfl⟩
        | none =>
          dsimp only
          rw [if_pos hcs]
          cases hconf : getCallsignConfig st.callsigns (cs.getD "") with
          | none => exact ⟨rfl, Or.inl rfl⟩
          | some conf =>
            dsimp only
            rw [hassign]
            exact ⟨rfl, Or.inr rfl⟩
    · rw [if_pos (by simpa using (fun hh : jsTruthy un = true ∧ jsTruthy pw = true => ht hh))]
      exact ⟨rfl, Or.inl rfl⟩
  · intro huniqcs hids hu hself hcne
    have huid : u.id = uid := by
      have := List.find?_some hu
      simpa using this
    have humem : u ∈ st.users := List.mem_of_find?_eq_some hu
    unfold putUserHandler
    rw [hu]
    dsimp only
    rw [if_neg (by simp [jsTruthy])]
    rw [if_neg (by simp [jsTruthy])]
    unfold putUserCallsignPhase
    dsimp only
    have hct : jsTruthy (some c) = true := by
      simpa [jsTruthy] using hcne
    have hany : (st.users.any (fun v => v.callsign = some (jsLower ((some c).getD "")) ∧ v.id ≠ uid)) = false := by
      rw [List.any_eq_false]
      intro v hv
      simp only [Option.getD_some, decide_eq_true_eq, not_and]
      intro hvc hvid
      have := huniqcs v hv u humem (by rw [huid]; exact hvid) (jsLower c) hvc
      exact this hself
    rw [if_neg (by
      intro hcon
      rw [hany] at hcon
      simp at hcon)]
    unfold putUserApplyAdmin
    dsimp only
    rw [if_pos hct]
    have hmapid : updateUserRow st.users uid
        (fun v => { v with callsign := some (jsLower ((some c).getD "")) }) = st.users := by
      unfold updateUserRow
      have hstep : ∀ v ∈ st.users,
          (if v.id = uid then { v with callsign := some (jsLower ((some c).getD "")) } else v) = v := by
        intro v hv
        by_cases h0 : v.id = uid
        · have hvu : v = u := by
            by_contra hne2
            have hsym : Symmetric (fun a b : User => a.id ≠ b.id) :=
              fun x y hh hh2 => hh hh2.symm
            exact (List.Pairwise.forall hsym hids hv humem hne2) (h0.trans huid.symm)
          subst hvu
          rw [if_pos h0]
          simp only [Option.getD_some]
          rw [← hself]
        · rw [if_neg h0]
      rw [List.map_congr_left hstep, List.map_id']
    rw [hmapid]

/-- The example user list satisfies the callsign uniqueness invariant. -/
theorem exState_callsignUniq : callsignUniq exState.users := by
  intro u hu v hv hne c hc
  fin_cases hu <;> fin_cases hv <;> simp_all [aliceU, bobU, adminU] <;>
    (subst hc
     decide)

/-- Witness for C6 amended: creating carol with bob's callsign bb is
rejected with 409 and leaves the state untouched, and reassigning
alice's own callsign as AA (case-insensitively hers already) succeeds
as a no-op. -/
theorem c6_callsign_uniqueness_witness :
    (createUserHandler exState exHash 9 (some "carol") (some "password9") (some "bb") false).2 = exState
    ∧ (createUserHandler exState exHash 9 (some "carol") (some "password9") (some "bb") false).1.status = 409
    ∧ putUserHandler exState exHash 1 none (some (some "AA")) none = (⟨200, "updated"⟩, exState) := by
  have h := c6_callsign_uniqueness exState exHash 9 1 (some "carol") (some "password9")
    (some "bb") false none (some (some "AA")) none "AA" aliceU bobU
  have hst := h.2.2.2.1 (by decide) (by decide)
  refine ⟨hst.1, ?_, h.2.2.2.2 exState_callsignUniq (by decide) (by decide) (by decide) (by decide)⟩
  rcases hst.2 with h4 | h4
  · exact absurd h4 (by decide)
  · exact h4
